import Mathlib

/-!
Verification development for the agentcore-langchain-poc repository.

The development shallowly embeds the request/response plumbing of the
repository: the Amplify service-api Lambda handler
(`amplify/functions/service-api/handler.ts`, provided as an unnamed source
file), the frontend API clients (`services-client.ts`, `backend-client.ts`,
`agentcore-client.ts`, `client.ts`) and the transport DTOs they exchange.
JavaScript objects and JSON payloads are modelled by an explicit `Json`
type; `undefined` values are modelled with `Option` and, as with
`JSON.stringify`, object fields holding `undefined` are dropped when an
object literal is built with `mkObj`.  External collaborators (the Bedrock
SDK, `fetch`, the Cognito session, the SigV4 signer) are modelled as
explicit oracle parameters, never as repository logic.
-/

/-- JSON values / plain JavaScript objects, as exchanged by the clients
and handlers.  `num` is an `Int`: every number produced by the embedded
code is an integer (ids, latencies in milliseconds, status codes). -/
inductive Json where
  | null
  | bool (b : Bool)
  | num (n : Int)
  | str (s : String)
  | arr (xs : List Json)
  | obj (fields : List (String × Json))

mutual
/-- Structural (strict) equality of JSON values, modelling `===` on the
primitive cases used by the embedded code. -/
def Json.beq : Json → Json → Bool
  | .null, .null => true
  | .bool a, .bool b => a == b
  | .num a, .num b => a == b
  | .str a, .str b => a == b
  | .arr xs, .arr ys => Json.beqList xs ys
  | .obj xs, .obj ys => Json.beqFields xs ys
  | _, _ => false

/-- Elementwise equality of JSON arrays. -/
def Json.beqList : List Json → List Json → Bool
  | [], [] => true
  | x :: xs, y :: ys => Json.beq x y && Json.beqList xs ys
  | _, _ => false

/-- Elementwise equality of JSON object field lists. -/
def Json.beqFields : List (String × Json) → List (String × Json) → Bool
  | [], [] => true
  | (k, v) :: xs, (k2, v2) :: ys => k == k2 && Json.beq v v2 && Json.beqFields xs ys
  | _, _ => false
end

instance : BEq Json := ⟨Json.beq⟩

/-- Property lookup `j[k]` on a JavaScript value: `none` models
`undefined` (absent key or access on a non-object). -/
def Json.get? (j : Json) (k : String) : Option Json :=
  match j with
  | .obj fs => fs.lookup k
  | _ => none

/-- The keys of a JSON object, in insertion order (empty for non-objects). -/
def Json.keys : Json → List String
  | .obj fs => fs.map Prod.fst
  | _ => []

/-- JavaScript truthiness of a defined value. -/
def Json.truthy : Json → Bool
  | .null => false
  | .bool b => b
  | .num n => n != 0
  | .str s => s != ""
  | .arr _ => true
  | .obj _ => true

/-- JavaScript truthiness where `none` is `undefined` (falsy). -/
def truthyOpt : Option Json → Bool
  | none => false
  | some j => j.truthy

/-- Object literal builder: a field whose value is `none` (that is,
`undefined`) is dropped, as `JSON.stringify` drops it. -/
def mkObj (fs : List (String × Option Json)) : Json :=
  .obj (fs.filterMap fun p => p.2.map fun v => (p.1, v))

mutual
/-- JavaScript string coercion, as performed by template literals. -/
def Json.jsString : Json → String
  | .null => "null"
  | .bool b => if b then "true" else "false"
  | .num n => toString n
  | .str s => s
  | .arr xs => jsStringList xs
  | .obj _ => "[object Object]"

/-- Array `toString`: elements joined with commas. -/
def jsStringList : List Json → String
  | [] => ""
  | [x] => Json.jsString x
  | x :: xs => Json.jsString x ++ "," ++ jsStringList xs
end

/-- String coercion of a possibly `undefined` value (`undefined` prints
as `"undefined"` in a template literal). -/
def jsStringOpt : Option Json → String
  | none => "undefined"
  | some j => j.jsString

/-- JavaScript `a || d` for an optional environment-variable string:
`undefined` and the empty string are falsy and select the default. -/
def jsOr (v : Option String) (d : String) : String :=
  match v with
  | some s => if s = "" then d else s
  | none => d

/-- First truthy string in a `a || b || ...` chain, with final default. -/
def firstTruthy (xs : List (Option String)) (d : String) : String :=
  match xs with
  | [] => d
  | some s :: rest => if s = "" then firstTruthy rest d else s
  | none :: rest => firstTruthy rest d

/-- Substring occurrence on character lists (structural, so that it
reduces in the kernel). -/
def hasSubList (sub : List Char) : List Char → Bool
  | [] => sub.isEmpty
  | c :: rest => sub.isPrefixOf (c :: rest) || hasSubList sub rest

/-- JavaScript `String.prototype.includes`. -/
def jsIncludes (s sub : String) : Bool :=
  hasSubList sub.data s.data

/-- `startsWith` over the character lists (kernel-reducible). -/
def strStartsWith (s p : String) : Bool :=
  p.data.isPrefixOf s.data

/-- `endsWith` over the character lists (kernel-reducible). -/
def strEndsWith (s suffix : String) : Bool :=
  suffix.data.isSuffixOf s.data

/-- Drop the first `n` characters (kernel-reducible `String.drop`). -/
def strDrop (s : String) (n : Nat) : String :=
  ⟨s.data.drop n⟩

/-! ## Embedding of the Amplify service-api Lambda handler

Source: the `handler.ts` Lambda of the Amplify `service-api` function
(an unnamed source file).  The Bedrock `client.send(ConverseCommand ...)`
call is an external collaborator and is modelled by the `send` oracle of
`LambdaEnv`: it either resolves, yielding the optional text of the first
content block of the output message, or throws.  Elapsed wall-clock time
is modelled as the latency reported by the oracle, since the only `await`
between the two `Date.now()` reads is the Bedrock call. -/

/-- Outcome of one `client.send` Bedrock invocation: the latency it took,
and either the optional text of `response.output?.message?.content?.[0]`
(`none` when the block or its `text` field is absent) or a thrown error
(`none` message models a thrown non-`Error` value). -/
inductive SendResult where
  | ok (latencyMs : Nat) (text : Option String)
  | thrown (latencyMs : Nat) (message : Option String)
  deriving DecidableEq, Repr

/-- External environment of the Lambda handler: the
`BEDROCK_MODEL_ID` environment variable, the Bedrock oracle (keyed by
model id and prompt), and the `generateId()` supply (keyed by the number
of ids generated so far during the request). -/
structure LambdaEnv where
  bedrockModelId : Option String
  send : String → String → SendResult
  genId : Nat → String

/-- `callBedrock(prompt)`: resolves the model id
(`process.env.BEDROCK_MODEL_ID || default`), sends the converse command,
extracts the text of the first content block (falling back to
`No response generated.` when it is absent or empty), and catches any
thrown error, returning `Error calling Bedrock: <message>` instead.
Returns the elapsed latency together with the content string. -/
def callBedrock (env : LambdaEnv) (prompt : String) : Nat × String :=
  let modelId := jsOr env.bedrockModelId "anthropic.claude-3-5-sonnet-20241022-v2:0"
  match env.send modelId prompt with
  | .ok lat (some t) => (lat, if t = "" then "No response generated." else t)
  | .ok lat none => (lat, "No response generated.")
  | .thrown lat m => (lat, "Error calling Bedrock: " ++ m.getD "Unknown error")

/-- `getFrameworkFeatures(agentType)`: the argument is compared with
`=== "strands"` (strict string equality), so it is modelled as the raw (possibly `undefined`)
JSON value of `body.agent_type`. -/
def getFrameworkFeatures (agentType : Option Json) : List String :=
  if agentType == some (.str "strands") then
    ["bedrock_native_integration", "agentcore_memory_api", "prompt_caching",
     "tool_caching", "automatic_tool_loop", "guardrails"]
  else
    ["langgraph_state_management", "checkpointing", "tool_node_automation",
     "multi_provider_support", "time_travel_debugging"]

/-- The remainder after the first occurrence of `sub`, or `none` when
`sub` does not occur. -/
def afterFirst (sub : List Char) : List Char → Option (List Char)
  | [] => if sub.isEmpty then some [] else none
  | c :: rest =>
      if sub.isPrefixOf (c :: rest) then some ((c :: rest).drop sub.length)
      else afterFirst sub rest

/-- The characters before the first `/`. -/
def takeUntilSlash : List Char → List Char
  | [] => []
  | c :: rest => if c = '/' then [] else c :: takeUntilSlash rest

/-- The JS expression `path.split(sep)[1]?.split(slash)[0] || dflt` with `sep = /services/` and `dflt = runtime`.
expression takes the text between the first and second occurrence of
`/services/` and then its prefix before the first `/`; since the
separator itself begins with `/`, that equals the prefix before the
first `/` of the remainder after the first occurrence. -/
def serviceNameOf (path : String) : String :=
  match afterFirst "/services/".data path.data with
  | none => "runtime"
  | some rest =>
      let s : String := ⟨takeUntilSlash rest⟩
      if s = "" then "runtime" else s

/-- `event.requestContext?.http`, carrying the method and path. -/
structure HttpInfo where
  method : String
  path : String
  deriving DecidableEq, Repr

/-- The request body, after base64 decoding and `JSON.parse`: either the
parsed JSON value or the message of the `SyntaxError` thrown by a failed
parse (which the top-level `catch` of the handler turns into a 500). -/
inductive BodyVal where
  | parsed (j : Json)
  | malformed (msg : String)

/-- The Lambda event, with the alternative method/path fields the handler
falls back over.  `requestContext` collapses the two optional levels
`requestContext?.http?`. -/
structure LambdaEvent where
  httpMethod : Option String := none
  requestContext : Option HttpInfo := none
  rawPath : Option String := none
  path : Option String := none
  body : Option BodyVal := none

/-- `event.requestContext?.http?.method || event.httpMethod || GET`. -/
def LambdaEvent.resolvedMethod (e : LambdaEvent) : String :=
  firstTruthy [e.requestContext.map HttpInfo.method, e.httpMethod] "GET"

/-- `event.requestContext?.http?.path || event.rawPath || event.path || /`. -/
def LambdaEvent.resolvedPath (e : LambdaEvent) : String :=
  firstTruthy [e.requestContext.map HttpInfo.path, e.rawPath, e.path] "/"

/-- The Lambda response: status code, CORS headers, and the response
body.  Every routed branch serializes a JSON object; the empty string
body of the CORS preflight branch is modelled as `Json.str ""`. -/
structure LambdaResponse where
  statusCode : Nat
  headers : List (String × String)
  body : Json

/-- The constant CORS headers attached to every handler response. -/
def corsHeaders : List (String × String) :=
  [("Content-Type", "application/json"),
   ("Access-Control-Allow-Origin", "*"),
   ("Access-Control-Allow-Methods", "GET, POST, OPTIONS"),
   ("Access-Control-Allow-Headers", "Content-Type, Authorization")]

/-- The `/execute` branch of the handler: prompt assembly, one Bedrock
call, and the `ServiceExecuteResponse` object literal. -/
def handlerExecute (env : LambdaEnv) (path : String) (body : Json) : LambdaResponse :=
  let agentType := body.get? "agent_type"
  let systemPrompt :=
    if agentType == some (.str "strands") then
      "You are an AI assistant powered by AWS Bedrock AgentCore (Strands Agents). "
    else
      "You are an AI assistant powered by LangChain/LangGraph. "
  let fullPrompt := systemPrompt ++ "\n\nUser: " ++ jsStringOpt (body.get? "instruction")
  let r := callBedrock env fullPrompt
  { statusCode := 200
    headers := corsHeaders
    body := mkObj
      [("response_id", some (.str (env.genId 0))),
       ("content", some (.str r.2)),
       ("latency_ms", some (.num r.1)),
       ("metadata", some (mkObj
         [("service", some (.str (serviceNameOf path))),
          ("agent_type", agentType),
          ("model_id", env.bedrockModelId.map Json.str)])),
       ("framework_features", some (.arr ((getFrameworkFeatures agentType).map Json.str)))] }

/-- The `/compare` branch of the handler: the strands Bedrock call is
awaited to completion before the langchain call starts. -/
def handlerCompare (env : LambdaEnv) (body : Json) : LambdaResponse :=
  let instr := jsStringOpt (body.get? "instruction")
  let strandsPrompt :=
    "You are an AI assistant powered by AWS Bedrock AgentCore (Strands Agents).\n\nUser: " ++ instr
  let s := callBedrock env strandsPrompt
  let langchainPrompt :=
    "You are an AI assistant powered by LangChain/LangGraph.\n\nUser: " ++ instr
  let l := callBedrock env langchainPrompt
  { statusCode := 200
    headers := corsHeaders
    body := mkObj
      [("strands_result", some (mkObj
         [("response_id", some (.str (env.genId 0))),
          ("content", some (.str s.2)),
          ("latency_ms", some (.num s.1)),
          ("framework_features", some (.arr ((getFrameworkFeatures (some (.str "strands"))).map Json.str)))])),
       ("langchain_result", some (mkObj
         [("response_id", some (.str (env.genId 1))),
          ("content", some (.str l.2)),
          ("latency_ms", some (.num l.1)),
          ("framework_features", some (.arr ((getFrameworkFeatures (some (.str "langchain"))).map Json.str)))])),
       ("comparison", some (mkObj
         [("latency_diff_ms", some (.num ((s.1 : Int) - (l.1 : Int)))),
          ("faster_framework", some (.str (if s.1 < l.1 then "strands" else "langchain")))]))] }

/-- The Lambda handler: CORS preflight, body parse (a parse failure is
caught by the top-level `catch` and yields a 500), then routing over
health, info, execute, compare, and a 404 fallback. -/
def handler (env : LambdaEnv) (event : LambdaEvent) : LambdaResponse :=
  let method := event.resolvedMethod
  let path := event.resolvedPath
  if method = "OPTIONS" then
    { statusCode := 200, headers := corsHeaders, body := .str "" }
  else
    match event.body with
    | some (.malformed msg) =>
        { statusCode := 500, headers := corsHeaders,
          body := mkObj [("error", some (.str msg))] }
    | bodyField =>
      let body? : Option Json :=
        match bodyField with
        | some (.parsed j) => some j
        | _ => none
      if strEndsWith path "/health" || path = "/" then
        { statusCode := 200, headers := corsHeaders,
          body := mkObj
            [("status", some (.str "ok")),
             ("version", some (.str "1.0.0")),
             ("path", some (.str path))] }
      else if jsIncludes path "/info" && method = "GET" then
        let serviceName := serviceNameOf path
        { statusCode := 200, headers := corsHeaders,
          body := mkObj
            [("service", some (.str serviceName)),
             ("description", some (.str (serviceName ++ " service for AgentCore vs LangChain comparison"))),
             ("supported_agents", some (.arr [.str "strands", .str "langchain"])),
             ("strands_features", some (.arr ((getFrameworkFeatures (some (.str "strands"))).map Json.str))),
             ("langchain_features", some (.arr ((getFrameworkFeatures (some (.str "langchain"))).map Json.str))),
             ("comparison_available", some (.bool true))] }
      else if jsIncludes path "/execute" && method = "POST" && truthyOpt body? then
        handlerExecute env path (body?.getD .null)
      else if jsIncludes path "/compare" && method = "POST" && truthyOpt body? then
        handlerCompare env (body?.getD .null)
      else
        { statusCode := 404, headers := corsHeaders,
          body := mkObj
            [("error", some (.str "Not found")),
             ("path", some (.str path)),
             ("method", some (.str method))] }

/-! ## Await-order model of the two comparison implementations

The value-level embeddings above and below are sequential Lean
functions, so the order in which calls are issued and awaited is made
explicit by a small trace model.  `Promise.all([f(), g()])` evaluates
the array literal first -- both async calls are issued -- and only then
awaits; sequential `await f(); await g()` issues and awaits `f` before
issuing `g`. -/

/-- An event in the await-order trace of an async function body. -/
inductive AsyncEv where
  | issued (callee : String)
  | awaited (callee : String)
  deriving DecidableEq, Repr

/-- Trace of `await Promise.all([...])`: every call is issued before any
is awaited. -/
def promiseAllTrace (callees : List String) : List AsyncEv :=
  callees.map AsyncEv.issued ++ callees.map AsyncEv.awaited

/-- Trace of a single `await f(...)` statement. -/
def awaitCallTrace (callee : String) : List AsyncEv :=
  [AsyncEv.issued callee, AsyncEv.awaited callee]

/-- Await-order trace of `compareServices` in `services-client.ts`:
`await Promise.all of the agentcore chat and the langchain chat`. -/
def compareServicesTrace : List AsyncEv :=
  promiseAllTrace ["chat:agentcore", "chat:langchain"]

/-- Await-order trace of the `/compare` branch of the Lambda handler:
`await callBedrock(strandsPrompt)` runs to completion before
`await callBedrock(langchainPrompt)` is issued. -/
def handlerCompareTrace : List AsyncEv :=
  awaitCallTrace "callBedrock:strands" ++ awaitCallTrace "callBedrock:langchain"

/-- Whether an event is an issue event. -/
def AsyncEv.isIssued : AsyncEv → Bool
  | .issued _ => true
  | .awaited _ => false

/-- A trace starts all its calls before awaiting any of them: after the
first await event, no further call is issued. -/
def startsBeforeAwaits (tr : List AsyncEv) : Bool :=
  (tr.dropWhile AsyncEv.isIssued).all fun e => !e.isIssued

/-! ## Common HTTP-client model

Shared by the embeddings of `services-client.ts`, `backend-client.ts`,
`agentcore-client.ts` and `client.ts`.  A `fetch` performed by a client
is recorded as a `SentRequest`; its outcome is supplied by an oracle.
The body handed to `fetch` is kept as the JSON value from which
`JSON.stringify` would produce the wire string (object literals are
built with `mkObj`, which performs the same dropping of `undefined`
fields as `JSON.stringify`). -/

/-- AWS credentials of the Cognito session
(`fetchAuthSession().credentials`). -/
structure Credentials where
  accessKeyId : String
  secretAccessKey : String
  sessionToken : Option String
  deriving DecidableEq, Repr

/-- The `@smithy/protocol-http` `HttpRequest` fields used by the clients. -/
structure HttpRequest where
  method : String
  protocol : String
  hostname : String
  port : Option Nat
  path : String
  headers : List (String × String)
  body : Option Json

/-- Modelled from the spec: SigV4 signing is the external
`@smithy/signature-v4` library (an explicit non-goal to reimplement).
`signer.sign(request)` is modelled as attaching an `authorization`
header derived from the credentials, the region and the service name. -/
def sigv4Sign (credentials : Credentials) (region service : String)
    (request : HttpRequest) : HttpRequest :=
  { request with
      headers := request.headers ++
        [("authorization",
          "AWS4-HMAC-SHA256 Credential=" ++ credentials.accessKeyId ++ "/" ++
            region ++ "/" ++ service)] }

/-- Whether a request carries the SigV4 signature header. -/
def HttpRequest.hasAuthHeader (r : HttpRequest) : Bool :=
  r.headers.any fun h => h.1 = "authorization"

/-- A request as actually handed to `fetch`. -/
structure SentRequest where
  url : String
  method : String
  headers : List (String × String)
  body : Option Json

/-- Outcome of a `fetch`: a response (status, status text, the body as
text and as parsed JSON) or a network-level rejection. -/
inductive FetchOutcome where
  | ok (status : Nat) (statusText : String) (bodyText : String) (json : Json)
  | networkError (message : String)

/-- `Response.ok`: status in the range 200-299. -/
def fetchOk (status : Nat) : Bool :=
  200 ≤ status && status ≤ 299

/-- A `fetch` oracle: the outcome of sending a given request. -/
def FetchOracle := SentRequest → FetchOutcome

/-- The parsed parts of a WHATWG URL used by the clients. -/
structure UrlParts where
  protocol : String
  hostname : String
  port : Option Nat
  pathname : String
  deriving DecidableEq, Repr

/-- `new URL(path, base)` for the shapes occurring in this repository:
the base is an origin (`https://host` or `http://host`, no path or
port) and `path` is an absolute path.  A base whose scheme is not
hierarchical (such as the `arn:aws:...` runtime ARN that the default
agentcore configuration stores in its `url` field) makes the URL
constructor throw, modelled by `Except.error`. -/
def parseUrl (base : String) (path : String) : Except String UrlParts :=
  if strStartsWith base "https://" then
    .ok { protocol := "https:", hostname := strDrop base 8, port := none, pathname := path }
  else if strStartsWith base "http://" then
    .ok { protocol := "http:", hostname := strDrop base 7, port := none, pathname := path }
  else
    .error "Invalid URL"

/-- `url.toString()` for a URL built by `parseUrl`. -/
def UrlParts.toUrlString (u : UrlParts) : String :=
  u.protocol ++ "//" ++ u.hostname ++ u.pathname

/-! ## Embedding of `frontend/src/shared/api/services-client.ts` -/

/-- The frontend environment: the `process.env` variables read by the
clients and the result of `fetchAuthSession()` (`Except.error` models a
rejected session fetch; `Option` models `session.credentials` being
absent). -/
structure FrontendEnv where
  agentcoreUrlVar : Option String := none
  langchainUrlVar : Option String := none
  regionVar : Option String := none
  apiUrlVar : Option String := none
  agentcoreRegionVar : Option String := none
  agentcoreRuntimeArnVar : Option String := none
  authSession : Except String (Option Credentials) := .ok none
  idToken : Option String := none

/-- The service selector: AgentCore (strands) or LangChain. -/
inductive ServiceType where
  | agentcore
  | langchain
  deriving DecidableEq, Repr

/-- `DEPLOYED_SERVICES.langchain.url` in `services-client.ts`. -/
def DEPLOYED_SERVICES_langchain_url : String :=
  "https://hqtuy24tbjdzbobyg4tzsr2xhe0rjmbx.lambda-url.us-east-1.on.aws"

/-- `DEPLOYED_SERVICES.agentcore.runtimeArn` in `services-client.ts`. -/
def DEPLOYED_SERVICES_agentcore_runtimeArn : String :=
  "arn:aws:bedrock-agentcore:us-east-1:226484346947:runtime/agentcore_strands_dev-sSCXyh2bVa"

/-- Per-service configuration (url and region). -/
structure ServiceEndpointConfig where
  url : String
  region : String
  deriving DecidableEq, Repr

/-- `getServiceConfig()`: environment variables override the deployed
defaults; the agentcore default `url` is the runtime ARN. -/
def getServiceConfig (env : FrontendEnv) (service : ServiceType) : ServiceEndpointConfig :=
  let region := jsOr env.regionVar "us-east-1"
  match service with
  | .agentcore =>
      { url := jsOr env.agentcoreUrlVar DEPLOYED_SERVICES_agentcore_runtimeArn, region }
  | .langchain =>
      { url := jsOr env.langchainUrlVar DEPLOYED_SERVICES_langchain_url, region }

/-- `signRequest` in `services-client.ts`: fetches the Cognito session,
throws `No credentials available` when it has no credentials, and
otherwise signs for the `lambda` service in the given region.  A
rejected `fetchAuthSession` propagates. -/
def servicesSignRequest (env : FrontendEnv) (request : HttpRequest)
    (region : String) : Except String HttpRequest :=
  match env.authSession with
  | .error e => .error e
  | .ok none => .error "No credentials available"
  | .ok (some credentials) => .ok (sigv4Sign credentials region "lambda" request)

/-- `callServiceApi`: resolves the configured URL for the requested
service, builds and signs the request, and sends it with `fetch`.
Returns the request actually sent (if any) together with the resolved
JSON body or the thrown error message. -/
def callServiceApi (env : FrontendEnv) (fetchO : FetchOracle)
    (service : ServiceType) (path : String) (method : String)
    (body : Option Json) : Option SentRequest × Except String Json :=
  let serviceConfig := getServiceConfig env service
  match parseUrl serviceConfig.url path with
  | .error e => (none, .error e)
  | .ok url =>
    let request : HttpRequest :=
      { method, protocol := url.protocol, hostname := url.hostname,
        port := url.port, path := url.pathname,
        headers := [("Content-Type", "application/json"), ("host", url.hostname)],
        body }
    match servicesSignRequest env request serviceConfig.region with
    | .error e => (none, .error e)
    | .ok signedRequest =>
      let sent : SentRequest :=
        { url := url.toUrlString, method := signedRequest.method,
          headers := signedRequest.headers, body := signedRequest.body }
      match fetchO sent with
      | .networkError m => (some sent, .error m)
      | .ok status _statusText bodyText json =>
          if fetchOk status then (some sent, .ok json)
          else (some sent,
            .error ("Service API error: " ++ toString status ++ " - " ++ bodyText))

/-- `ChatRequest` in `services-client.ts`: required instruction,
optional session id, optional tools flag. -/
structure ChatRequest where
  instruction : String
  session_id : Option String := none
  use_tools : Option Bool := none
  deriving DecidableEq, Repr

/-- The JSON body `chat` sends: the `ChatRequest` record serialized
with its optional fields dropped when absent. -/
def ChatRequest.toJson (r : ChatRequest) : Json :=
  mkObj
    [("instruction", some (.str r.instruction)),
     ("session_id", r.session_id.map Json.str),
     ("use_tools", r.use_tools.map Json.bool)]

/-- `chat(service, request)`: POST the request to `/api/v1/chat` on the
selected service. -/
def chat (env : FrontendEnv) (fetchO : FetchOracle) (service : ServiceType)
    (request : ChatRequest) : Option SentRequest × Except String Json :=
  callServiceApi env fetchO service "/api/v1/chat" "POST" (some request.toJson)

/-- `compareServices(request)`: run `chat` on both services with the same
request (issued together via `Promise.all`, see `compareServicesTrace`)
and pair the results; if either rejects, `Promise.all` rejects. -/
def compareServices (env : FrontendEnv) (fetchO : FetchOracle)
    (request : ChatRequest) : Except String (Json × Json) :=
  match (chat env fetchO .agentcore request).2, (chat env fetchO .langchain request).2 with
  | .ok a, .ok l => .ok (a, l)
  | .error e, _ => .error e
  | _, .error e => .error e

/-- `ToolCall` in `services-client.ts`: tool name, tool input, and the
optional tool output. -/
structure ToolCall where
  tool_name : String
  tool_input : List (String × Json)
  tool_output : Option Json := none

/-- A `ToolCall` record as a JSON object, fields in declaration order,
the optional output dropped when absent. -/
def ToolCall.toJson (t : ToolCall) : Json :=
  mkObj
    [("tool_name", some (.str t.tool_name)),
     ("tool_input", some (.obj t.tool_input)),
     ("tool_output", t.tool_output)]

/-- The `metadata` member of `ChatResponse`: the four declared keys plus
an index signature for further entries. -/
structure ChatMetadata where
  service : String
  framework : String
  model_id : String
  region : String
  extra : List (String × Json) := []

/-- `ChatResponse` in `services-client.ts`. -/
structure ChatResponse where
  response_id : String
  content : String
  tool_calls : Option (List ToolCall)
  latency_ms : Int
  metadata : ChatMetadata

/-! ## Embedding of `frontend/src/shared/api/backend-client.ts` -/

/-- `SERVICES.langchain` in `backend-client.ts`. -/
def SERVICES_langchain_url : String :=
  "https://fqr4tujkvmwtd6kn57wl5zhvqe0rqcjr.lambda-url.us-east-1.on.aws"

/-- The region of `SERVICES.langchain` and `SERVICES.agentcore`. -/
def SERVICES_region : String := "us-east-1"

/-- `SERVICES.agentcore.runtimeArn` in `backend-client.ts`. -/
def SERVICES_agentcore_runtimeArn : String :=
  "arn:aws:bedrock-agentcore:us-east-1:226484346947:runtime/agentcore_strands_dev-sSCXyh2bVa"

/-- `BackendApiError`: status, status text and message of a failed
backend call. -/
structure BackendApiError where
  status : Nat
  statusText : String
  message : String
  deriving DecidableEq, Repr

/-- A value thrown inside `backend-client.ts`: a `BackendApiError` or
another error carrying a message (such as the `TypeError` of a rejected
`fetch`). -/
inductive BackendThrow where
  | api (e : BackendApiError)
  | plain (message : String)
  deriving DecidableEq, Repr

/-- `reason?.message` on a thrown value. -/
def BackendThrow.message : BackendThrow → String
  | .api e => e.message
  | .plain m => m

/-- `signRequest` in `backend-client.ts`: unlike its namesake in
`services-client.ts`, it never throws.  When the session fetch fails or
yields no credentials (and on any other signing error) it logs a
warning and returns the request unchanged, so the caller proceeds with
an unsigned request. -/
def backendSignRequest (env : FrontendEnv) (request : HttpRequest)
    (region service : String) : HttpRequest :=
  match env.authSession with
  | .error _ => request
  | .ok none => request
  | .ok (some credentials) => sigv4Sign credentials region service request

/-- `callLangChainApi`: builds the request against
`SERVICES.langchain.url`, signs it with the fallback signer, sends it,
and throws `BackendApiError` on a non-ok status. -/
def callLangChainApi (env : FrontendEnv) (fetchO : FetchOracle)
    (path : String) (method : String) (body : Option Json) :
    Option SentRequest × Except BackendThrow Json :=
  match parseUrl SERVICES_langchain_url path with
  | .error e => (none, .error (.plain e))
  | .ok url =>
    let request : HttpRequest :=
      { method, protocol := url.protocol, hostname := url.hostname,
        port := url.port, path := url.pathname,
        headers := [("Content-Type", "application/json"), ("host", url.hostname)],
        body }
    let signedRequest := backendSignRequest env request SERVICES_region "lambda"
    let sent : SentRequest :=
      { url := url.toUrlString, method := signedRequest.method,
        headers := signedRequest.headers, body := signedRequest.body }
    match fetchO sent with
    | .networkError m => (some sent, .error (.plain m))
    | .ok status statusText bodyText json =>
        if fetchOk status then (some sent, .ok json)
        else (some sent, .error (.api ⟨status, statusText, bodyText⟩))

/-- `ServiceExecuteRequest` in `backend-client.ts`. -/
structure ServiceExecuteRequest where
  instruction : String
  agent_type : String
  tools : Option (List Json) := none
  use_memory : Option Bool := none
  session_id : Option String := none

/-- `data.tools && data.tools.length > 0`: `undefined` when `tools` is
absent, otherwise the emptiness test (arrays are truthy). -/
def useToolsFlag (tools : Option (List Json)) : Option Json :=
  tools.map fun ts => .bool (decide (ts.length > 0))

/-- The fields spread from `{...response.metadata}` (spreading a
non-object contributes no string-keyed fields for the values occurring
here). -/
def spreadFields : Option Json → List (String × Json)
  | some (.obj fs) => fs
  | _ => []

/-- Object-literal override `{...fs, k: v}`: an existing key keeps its
position and takes the new value, a new key is appended.  (Object keys
are unique, so replacing the first occurrence is the JS semantics.) -/
def setKey : List (String × Json) → String → Json → List (String × Json)
  | [], k, v => [(k, v)]
  | p :: rest, k, v => if p.1 = k then (k, v) :: rest else p :: setKey rest k v

/-- Object-literal spread `{...fs, ...extra}`: every field of `extra`
is assigned onto `fs` in order. -/
def objAssign (fs : List (String × Json)) (extra : List (String × Json)) :
    List (String × Json) :=
  extra.foldl (fun acc p => setKey acc p.1 p.2) fs

/-- The body `executeOnDeployedService` posts for a langchain request. -/
def executeBodyLangchain (data : ServiceExecuteRequest) : Json :=
  mkObj
    [("instruction", some (.str data.instruction)),
     ("use_tools", useToolsFlag data.tools),
     ("session_id", data.session_id.map Json.str)]

/-- The body `executeOnDeployedService` posts for an agentcore (strands)
request: the same chat body plus the proxy flag `target_service` and
the runtime ARN. -/
def executeBodyStrands (data : ServiceExecuteRequest) : Json :=
  mkObj
    [("instruction", some (.str data.instruction)),
     ("use_tools", useToolsFlag data.tools),
     ("session_id", data.session_id.map Json.str),
     ("target_service", some (.str "agentcore")),
     ("agentcore_runtime_arn", some (.str SERVICES_agentcore_runtimeArn))]

/-- The `ServiceExecuteResponse` object literal `executeOnDeployedService`
returns, normalizing the upstream chat response: `tool_calls` is kept
only when truthy (`|| undefined`), a falsy upstream `latency_ms` falls
back to the measured elapsed time, and `metadata` is the upstream
metadata with `service` overridden. -/
def normalizeExecuteResponse (response : Json) (serviceTag : String)
    (features : List String) (elapsed : Nat) : Json :=
  mkObj
    [("response_id", response.get? "response_id"),
     ("content", response.get? "content"),
     ("tool_calls",
       if truthyOpt (response.get? "tool_calls") then response.get? "tool_calls" else none),
     ("latency_ms",
       if truthyOpt (response.get? "latency_ms") then response.get? "latency_ms"
       else some (.num elapsed)),
     ("metadata", some (.obj (setKey (spreadFields (response.get? "metadata")) "service" (.str serviceTag)))),
     ("framework_features", some (.arr (features.map Json.str)))]

/-- `executeOnDeployedService(data)`: both branches call the LangChain
Lambda at `/api/v1/chat`; the strands branch proxies through it with
`target_service: agentcore` instead of contacting an AgentCore
endpoint.  `elapsed` is the wall-clock time of the call, used as the
`Date.now() - startTime` fallback. -/
def executeOnDeployedService (env : FrontendEnv) (fetchO : FetchOracle)
    (elapsed : Nat) (data : ServiceExecuteRequest) :
    Option SentRequest × Except BackendThrow Json :=
  if data.agent_type = "langchain" then
    let r := callLangChainApi env fetchO "/api/v1/chat" "POST" (some (executeBodyLangchain data))
    (r.1, r.2.map fun response =>
      normalizeExecuteResponse response "langchain"
        ["LangChain", "LangGraph", "Checkpointing"] elapsed)
  else
    let r := callLangChainApi env fetchO "/api/v1/chat" "POST" (some (executeBodyStrands data))
    (r.1, r.2.map fun response =>
      normalizeExecuteResponse response "agentcore"
        ["Strands Agents", "AWS Native", "BedrockModel"] elapsed)

/-- Whether an `Except` is a fulfilled (`ok`) outcome. -/
def exceptIsOk {ε α : Type} : Except ε α → Bool
  | .ok _ => true
  | .error _ => false

/-- `compare` of `createServiceApi` in `backend-client.ts`:
`Promise.allSettled` of `executeOnDeployedService` for both agent
types; per-framework results are `undefined` when the call rejected,
and the `comparison` object records success flags and
`reason?.message` (or `null`) per framework.  `allSettled` never
rejects, so the function is total. -/
def serviceApiCompare (env : FrontendEnv) (fetchO : FetchOracle)
    (elapsedS elapsedL : Nat) (data : ServiceExecuteRequest) : Json :=
  let strandsResult :=
    (executeOnDeployedService env fetchO elapsedS { data with agent_type := "strands" }).2
  let langchainResult :=
    (executeOnDeployedService env fetchO elapsedL { data with agent_type := "langchain" }).2
  mkObj
    [("strands_result",
       match strandsResult with | .ok v => some v | .error _ => none),
     ("langchain_result",
       match langchainResult with | .ok v => some v | .error _ => none),
     ("comparison", some (mkObj
       [("strands_success", some (.bool (exceptIsOk strandsResult))),
        ("langchain_success", some (.bool (exceptIsOk langchainResult))),
        ("strands_error", some
          (match strandsResult with | .error e => .str e.message | .ok _ => .null)),
        ("langchain_error", some
          (match langchainResult with | .error e => .str e.message | .ok _ => .null))]))]

/-! ## Embedding of `frontend/src/shared/api/agentcore-client.ts` -/

/-- Uppercase hexadecimal digit. -/
def hexDigitUpper (n : Nat) : Char :=
  if n < 10 then Char.ofNat (48 + n) else Char.ofNat (55 + n)

/-- One percent-encoded byte, `%XY` with uppercase hex. -/
def percentEncodeByte (n : Nat) : String :=
  "%" ++ String.singleton (hexDigitUpper (n / 16)) ++ String.singleton (hexDigitUpper (n % 16))

/-- The UTF-8 bytes of a character (kernel-reducible). -/
def utf8Bytes (c : Char) : List Nat :=
  let n := c.toNat
  if n < 128 then [n]
  else if n < 2048 then [192 + n / 64, 128 + n % 64]
  else if n < 65536 then [224 + n / 4096, 128 + (n / 64) % 64, 128 + n % 64]
  else [240 + n / 262144, 128 + (n / 4096) % 64, 128 + (n / 64) % 64, 128 + n % 64]

/-- The characters `encodeURIComponent` leaves unescaped besides
alphanumerics: dash, underscore, dot, bang, tilde, star, apostrophe and parentheses. -/
def uriUnreservedMarks : List Char :=
  ['-', '_', '.', '!', '~', '*', Char.ofNat 39, '(', ')']

/-- `encodeURIComponent` on one character: unreserved characters pass
through, every other character is the percent-encoding of its UTF-8
bytes. -/
def encodeURIComponentChar (c : Char) : String :=
  if c.isAlphanum || uriUnreservedMarks.contains c then String.singleton c
  else String.join ((utf8Bytes c).map percentEncodeByte)

/-- JavaScript `encodeURIComponent`. -/
def encodeURIComponent (s : String) : String :=
  String.join (s.toList.map encodeURIComponentChar)

/-- `AGENTCORE_CONFIG`: region and runtime ARN resolved from the
environment with their defaults (`ap-northeast-1`, empty ARN). -/
structure AgentCoreConfig where
  region : String
  runtimeArn : String
  deriving DecidableEq, Repr

/-- `AGENTCORE_CONFIG` as read from `process.env`. -/
def agentCoreConfigOf (env : FrontendEnv) : AgentCoreConfig :=
  { region := jsOr env.agentcoreRegionVar "ap-northeast-1",
    runtimeArn := jsOr env.agentcoreRuntimeArnVar "" }

/-- `getAgentCoreEndpoint()`: empty when no runtime ARN is configured,
otherwise
`https://bedrock-agentcore.{region}.amazonaws.com/runtimes/{EncodedAgentARN}/invocations`. -/
def getAgentCoreEndpoint (config : AgentCoreConfig) : String :=
  if config.runtimeArn = "" then ""
  else
    "https://bedrock-agentcore." ++ config.region ++ ".amazonaws.com/runtimes/" ++
      encodeURIComponent config.runtimeArn ++ "/invocations"

/-- `AgentCoreApiError`. -/
structure AgentCoreApiError where
  status : Nat
  statusText : String
  message : String
  deriving DecidableEq, Repr

/-- A value thrown inside `agentcore-client.ts`. -/
inductive AgentCoreThrow where
  | api (e : AgentCoreApiError)
  | plain (message : String)
  deriving DecidableEq, Repr

/-- The headers `invokeAgentCore` and `agentCoreChatApi.send` attach:
content type, the Cognito bearer token when a session exists, and the
AgentCore session header when a session id is given. -/
def agentCoreHeaders (env : FrontendEnv) (sessionId : Option String) :
    List (String × String) :=
  [("Content-Type", "application/json")] ++
    (match env.idToken with
     | some token => [("Authorization", "Bearer " ++ token)]
     | none => []) ++
    (match sessionId with
     | some sid => [("X-Amzn-Bedrock-AgentCore-Runtime-Session-Id", sid)]
     | none => [])

/-- `data.output?.message?.content?.[0]?.text` on a response body. -/
def agentCoreOutputText (data : Json) : Option Json :=
  (((data.get? "output").bind (fun o => o.get? "message")).bind
      (fun m => m.get? "content")).bind
    fun c =>
      match c with
      | .arr (x :: _) => x.get? "text"
      | _ => none

/-- Unwrapping of an AgentCore Runtime response: when the first content
block holds truthy text, `JSON.parse` it (the parse oracle models
`JSON.parse`, returning `none` on a parse failure, in which case the
raw text is returned); otherwise return the body unchanged. -/
def unwrapAgentCoreResponse (parse : String → Option Json) (data : Json) : Json :=
  match agentCoreOutputText data with
  | some t =>
      if t.truthy then
        match parse t.jsString with
        | some j => j
        | none => t
      else data
  | none => data

/-- `invokeAgentCore(action, payload, sessionId)`: throws a configuration
`AgentCoreApiError` when no endpoint is configured; otherwise POSTs
`{input: {action, ...payload}}` to the `/invocations` endpoint, throws
`AgentCoreApiError` on a non-ok status, and unwraps the response. -/
def invokeAgentCore (env : FrontendEnv) (fetchO : FetchOracle)
    (parse : String → Option Json) (action : String)
    (payload : List (String × Json)) (sessionId : Option String) :
    Option SentRequest × Except AgentCoreThrow Json :=
  let endpoint := getAgentCoreEndpoint (agentCoreConfigOf env)
  if endpoint = "" then
    (none, .error (.api ⟨500, "Configuration Error", "AgentCore Runtime ARN is not configured"⟩))
  else
    let body : Json := .obj [("input", .obj (objAssign [("action", .str action)] payload))]
    let sent : SentRequest :=
      { url := endpoint, method := "POST",
        headers := agentCoreHeaders env sessionId, body := some body }
    match fetchO sent with
    | .networkError m => (some sent, .error (.plain m))
    | .ok status statusText bodyText json =>
        if fetchOk status then (some sent, .ok (unwrapAgentCoreResponse parse json))
        else (some sent, .error (.api ⟨status, statusText,
          if bodyText = "" then "AgentCore API Error: " ++ toString status else bodyText⟩))

/-- `agentCoreChatApi.send(prompt, sessionId)`: POSTs `{input: {prompt}}`
to the same `/invocations` endpoint and extracts `{content, timestamp}`
from the response (`nowIso` models `new Date().toISOString()`). -/
def agentCoreChatSend (env : FrontendEnv) (fetchO : FetchOracle)
    (nowIso : String) (prompt : String) (sessionId : Option String) :
    Option SentRequest × Except AgentCoreThrow (String × String) :=
  let endpoint := getAgentCoreEndpoint (agentCoreConfigOf env)
  if endpoint = "" then
    (none, .error (.api ⟨500, "Configuration Error", "AgentCore Runtime ARN is not configured"⟩))
  else
    let sent : SentRequest :=
      { url := endpoint, method := "POST",
        headers := agentCoreHeaders env sessionId,
        body := some (.obj [("input", .obj [("prompt", .str prompt)])]) }
    match fetchO sent with
    | .networkError m => (some sent, .error (.plain m))
    | .ok status statusText bodyText json =>
        if fetchOk status then
          let content :=
            match agentCoreOutputText json with
            | some t => if t.truthy then t.jsString else ""
            | none => ""
          let timestamp :=
            match (json.get? "output").bind (fun o => o.get? "timestamp") with
            | some t => if t.truthy then t.jsString else nowIso
            | none => nowIso
          (some sent, .ok (content, timestamp))
        else (some sent, .error (.api ⟨status, statusText,
          if bodyText = "" then "AgentCore API Error: " ++ toString status else bodyText⟩))

/-! ## Embedding of `frontend/src/shared/api/client.ts` -/

/-- `ApiError`: HTTP status, status text and message. -/
structure ApiError where
  status : Nat
  statusText : String
  message : String
  deriving DecidableEq, Repr

/-- A value thrown inside `client.ts`. -/
inductive ClientThrow where
  | api (e : ApiError)
  | plain (message : String)
  deriving DecidableEq, Repr

/-- `API_BASE_URL`: `process.env.NEXT_PUBLIC_API_URL || "http://localhost:8000"`. -/
def apiBaseUrl (env : FrontendEnv) : String :=
  jsOr env.apiUrlVar "http://localhost:8000"

/-- `apiClient(endpoint, options)`: fetches `API_BASE_URL + endpoint`
and, on a non-ok response, throws an `ApiError` whose message is the
response body text, or `API Error: <status>` when that text is empty.
Only an ok response resolves, with the parsed JSON body.  The
`options` argument is modelled by its method and body; the headers are
the default JSON content type (callers of `apiClient` in this
repository pass no extra headers). -/
def apiClient (env : FrontendEnv) (fetchO : FetchOracle)
    (endpoint : String) (method : String) (body : Option Json) :
    Option SentRequest × Except ClientThrow Json :=
  let sent : SentRequest :=
    { url := apiBaseUrl env ++ endpoint, method,
      headers := [("Content-Type", "application/json")], body }
  match fetchO sent with
  | .networkError m => (some sent, .error (.plain m))
  | .ok status statusText bodyText json =>
      if fetchOk status then (some sent, .ok json)
      else (some sent, .error (.api ⟨status, statusText,
        if bodyText = "" then "API Error: " ++ toString status else bodyText⟩))

/-! ## Test fixtures -/

/-- A Bedrock oracle that always resolves with the text `hello` after
120 ms. -/
def sendHello : String → String → SendResult := fun _ _ => .ok 120 (some "hello")

/-- A Bedrock oracle that always throws `boom` after 5 ms. -/
def sendBoom : String → String → SendResult := fun _ _ => .thrown 5 (some "boom")

/-- A deterministic `generateId` supply. -/
def idSupply : Nat → String := fun n => "ID" ++ toString n

/-- Lambda environment whose Bedrock oracle resolves. -/
def lamEnvOk : LambdaEnv := ⟨some "model-x", sendHello, idSupply⟩

/-- Lambda environment whose Bedrock oracle throws. -/
def lamEnvBoom : LambdaEnv := ⟨some "model-x", sendBoom, idSupply⟩

/-- A POST Lambda event with a parsed JSON body. -/
def mkPostEvent (path : String) (b : Json) : LambdaEvent :=
  { requestContext := some ⟨"POST", path⟩, body := some (.parsed b) }

/-- A POST Lambda event whose body fails to parse. -/
def mkMalformedPostEvent (path msg : String) : LambdaEvent :=
  { requestContext := some ⟨"POST", path⟩, body := some (.malformed msg) }

/-- A strands execute request body. -/
def strandsBody : Json :=
  .obj [("instruction", .str "hi"), ("agent_type", .str "strands")]

/-- A fetch oracle that always returns an empty 200 response. -/
def fetchAlwaysOk : FetchOracle := fun _ => .ok 200 "OK" "" (.obj [])

/-- A fetch oracle that always rejects at the network level. -/
def fetchNetErr : FetchOracle := fun _ => .networkError "network down"

/-- Concrete test credentials. -/
def credsA : Credentials := ⟨"AKIAEXAMPLE", "secretkey", none⟩

/-- A frontend environment with a signed-in session. -/
def envWithCreds : FrontendEnv := { authSession := .ok (some credsA) }

/-- A frontend environment whose session has no credentials. -/
def envNoCreds : FrontendEnv := { authSession := .ok none }

/-! ## Claims about the Lambda handler -/

/-- C2 (counterexample): on a concrete successful execute request the
handler returns 200 but the response body has no `tool_calls` field and
an extra `framework_features` field, and its metadata keys are
`service`, `agent_type`, `model_id` -- not `service`, `framework`,
`model_id`, `region` as the claim states. -/
theorem execute_response_shape_counterexample :
    (handler lamEnvOk (mkPostEvent "/services/runtime/execute" strandsBody)).statusCode = 200
    ∧ (handler lamEnvOk (mkPostEvent "/services/runtime/execute" strandsBody)).body.keys
        = ["response_id", "content", "latency_ms", "metadata", "framework_features"]
    ∧ (handler lamEnvOk (mkPostEvent "/services/runtime/execute" strandsBody)).body.keys
        ≠ ["response_id", "content", "tool_calls", "latency_ms", "metadata"]
    ∧ (((handler lamEnvOk (mkPostEvent "/services/runtime/execute" strandsBody)).body.get?
          "metadata").map Json.keys)
        = some ["service", "agent_type", "model_id"] := by
  refine ⟨rfl, rfl, by decide, rfl⟩

/-- Routing lemma: a POST event with a parsed truthy body whose path
mentions `/execute` and is neither a health path nor the root reaches
the execute branch. -/
theorem handler_execute_route (env : LambdaEnv) (path : String) (b : Json)
    (h1 : jsIncludes path "/execute" = true)
    (h2 : strEndsWith path "/health" = false)
    (h3 : path ≠ "/") (h4 : b.truthy = true) :
    handler env (mkPostEvent path b) = handlerExecute env path b := by
  have hne : path ≠ "" := by
    intro h
    rw [h] at h1
    exact absurd h1 (by decide)
  unfold handler
  simp [mkPostEvent, LambdaEvent.resolvedMethod, LambdaEvent.resolvedPath, firstTruthy,
        hne, h1, h2, h3, h4, truthyOpt]

/-- Routing lemma: a POST event with a parsed truthy body whose path
mentions `/compare` but not `/execute` reaches the compare branch. -/
theorem handler_compare_route (env : LambdaEnv) (path : String) (b : Json)
    (h1 : jsIncludes path "/compare" = true)
    (h1e : jsIncludes path "/execute" = false)
    (h2 : strEndsWith path "/health" = false)
    (h3 : path ≠ "/") (h4 : b.truthy = true) :
    handler env (mkPostEvent path b) = handlerCompare env b := by
  have hne : path ≠ "" := by
    intro h
    rw [h] at h1
    exact absurd h1 (by decide)
  unfold handler
  simp [mkPostEvent, LambdaEvent.resolvedMethod, LambdaEvent.resolvedPath, firstTruthy,
        hne, h1, h1e, h2, h3, h4, truthyOpt]

/-- C2 (amended): every successful execute response of the Lambda
handler is a record with exactly the fields `response_id`, `content`,
`latency_ms`, `metadata` and `framework_features` (no `tool_calls`),
and its metadata contains the key `service`, the key `agent_type`
exactly when the request carried one, and the key `model_id` exactly
when the `BEDROCK_MODEL_ID` environment variable is set. -/
theorem execute_response_shape (env : LambdaEnv) (path : String) (b : Json)
    (h1 : jsIncludes path "/execute" = true)
    (h2 : strEndsWith path "/health" = false)
    (h3 : path ≠ "/") (h4 : b.truthy = true) :
    (handler env (mkPostEvent path b)).statusCode = 200
    ∧ (handler env (mkPostEvent path b)).body.keys
        = ["response_id", "content", "latency_ms", "metadata", "framework_features"]
    ∧ ((handler env (mkPostEvent path b)).body.get? "metadata").map Json.keys
        = some (["service"]
            ++ (if (b.get? "agent_type").isSome then ["agent_type"] else [])
            ++ (if env.bedrockModelId.isSome then ["model_id"] else [])) := by
  rw [handler_execute_route env path b h1 h2 h3 h4]
  refine ⟨rfl, rfl, ?_⟩
  cases hA : b.get? "agent_type" <;> cases hM : env.bedrockModelId <;>
    simp only [handlerExecute, hA, hM] <;> rfl

/-- C2 (witness): the amended shape theorem at a concrete request. -/
theorem execute_response_shape_witness :
    (handler lamEnvOk (mkPostEvent "/services/memory/execute" strandsBody)).statusCode = 200
    ∧ (handler lamEnvOk (mkPostEvent "/services/memory/execute" strandsBody)).body.keys
        = ["response_id", "content", "latency_ms", "metadata", "framework_features"]
    ∧ ((handler lamEnvOk (mkPostEvent "/services/memory/execute" strandsBody)).body.get?
          "metadata").map Json.keys
        = some (["service"]
            ++ (if (strandsBody.get? "agent_type").isSome then ["agent_type"] else [])
            ++ (if lamEnvOk.bedrockModelId.isSome then ["model_id"] else [])) :=
  execute_response_shape lamEnvOk "/services/memory/execute" strandsBody
    (by decide) (by decide) (by decide) (by decide)

/-- C3 (counterexample): on a concrete execute request whose Bedrock
invocation throws, the handler returns HTTP 200 (not 401 or 500), with
the error text as the response content. -/
theorem bedrock_error_yields_200_counterexample :
    (handler lamEnvBoom (mkPostEvent "/services/runtime/execute" strandsBody)).statusCode = 200
    ∧ (handler lamEnvBoom (mkPostEvent "/services/runtime/execute" strandsBody)).body.get? "content"
        = some (.str "Error calling Bedrock: boom")
    ∧ (handler lamEnvBoom (mkPostEvent "/services/runtime/execute" strandsBody)).statusCode ≠ 401
    ∧ (handler lamEnvBoom (mkPostEvent "/services/runtime/execute" strandsBody)).statusCode ≠ 500 :=
  ⟨rfl, rfl, by decide, by decide⟩

/-- C3 (amended): a Bedrock SDK exception during an execute request is
caught inside `callBedrock` and surfaced as a 200 response whose
content is `Error calling Bedrock: <message>`; only exceptions raised
outside `callBedrock` (such as a malformed request body, whose
`JSON.parse` failure reaches the top-level catch) produce a 500. -/
theorem bedrock_errors_caught_in_callBedrock (env : LambdaEnv) (path : String) (b : Json)
    (lat : Nat) (msg : Option String)
    (hS : ∀ m p, env.send m p = .thrown lat msg)
    (h1 : jsIncludes path "/execute" = true)
    (h2 : strEndsWith path "/health" = false)
    (h3 : path ≠ "/") (h4 : b.truthy = true) :
    (handler env (mkPostEvent path b)).statusCode = 200
    ∧ (handler env (mkPostEvent path b)).body.get? "content"
        = some (.str ("Error calling Bedrock: " ++ msg.getD "Unknown error"))
    ∧ ∀ m : String, (handler env (mkMalformedPostEvent path m)).statusCode = 500 := by
  refine ⟨?_, ?_, fun m => rfl⟩
  · rw [handler_execute_route env path b h1 h2 h3 h4]; rfl
  · rw [handler_execute_route env path b h1 h2 h3 h4]
    simp only [handlerExecute, callBedrock, hS]
    rfl

/-- C3 (witness): the amended theorem at a concrete throwing oracle. -/
theorem bedrock_errors_caught_in_callBedrock_witness :
    (handler lamEnvBoom (mkPostEvent "/api/execute" strandsBody)).statusCode = 200
    ∧ (handler lamEnvBoom (mkPostEvent "/api/execute" strandsBody)).body.get? "content"
        = some (.str ("Error calling Bedrock: " ++ (some "boom").getD "Unknown error"))
    ∧ ∀ m : String, (handler lamEnvBoom (mkMalformedPostEvent "/api/execute" m)).statusCode = 500 :=
  bedrock_errors_caught_in_callBedrock lamEnvBoom "/api/execute" strandsBody 5 (some "boom")
    (fun _ _ => rfl) (by decide) (by decide) (by decide) (by decide)

/-- C4 (counterexample): the Lambda compare branch is a comparison
request handler, yet its await-order trace awaits the strands Bedrock
call before issuing the langchain one, so the two backend calls are not
both started before either is awaited. -/
theorem lambda_compare_sequential_counterexample :
    startsBeforeAwaits handlerCompareTrace = false
    ∧ (handler lamEnvOk (mkPostEvent "/services/runtime/compare" strandsBody)).statusCode = 200
    ∧ (handler lamEnvOk (mkPostEvent "/services/runtime/compare" strandsBody)).body.keys
        = ["strands_result", "langchain_result", "comparison"] :=
  ⟨by decide, rfl, rfl⟩

/-- C4 (amended): the frontend `compareServices` issues both chat calls
before awaiting either (`Promise.all`), and its fulfilled result pairs
exactly the two per-framework chat responses for the same request; the
Lambda compare branch instead runs its two Bedrock calls sequentially,
and its result contains one response per framework, both derived from
the same request instruction. -/
theorem comparison_await_order (env : LambdaEnv) (path : String) (b : Json)
    (h1 : jsIncludes path "/compare" = true)
    (h1e : jsIncludes path "/execute" = false)
    (h2 : strEndsWith path "/health" = false)
    (h3 : path ≠ "/") (h4 : b.truthy = true) :
    startsBeforeAwaits compareServicesTrace = true
    ∧ startsBeforeAwaits handlerCompareTrace = false
    ∧ (handler env (mkPostEvent path b)).body.keys
        = ["strands_result", "langchain_result", "comparison"]
    ∧ ((handler env (mkPostEvent path b)).body.get? "strands_result").bind
        (fun r => r.get? "content")
        = some (.str (callBedrock env
            ("You are an AI assistant powered by AWS Bedrock AgentCore (Strands Agents).\n\nUser: "
              ++ jsStringOpt (b.get? "instruction"))).2)
    ∧ ((handler env (mkPostEvent path b)).body.get? "langchain_result").bind
        (fun r => r.get? "content")
        = some (.str (callBedrock env
            ("You are an AI assistant powered by LangChain/LangGraph.\n\nUser: "
              ++ jsStringOpt (b.get? "instruction"))).2)
    ∧ ∀ (envF : FrontendEnv) (fetchO : FetchOracle) (req : ChatRequest) (a l : Json),
        compareServices envF fetchO req = .ok (a, l) →
        (chat envF fetchO .agentcore req).2 = .ok a
          ∧ (chat envF fetchO .langchain req).2 = .ok l := by
  refine ⟨by decide, by decide, ?_, ?_, ?_, ?_⟩
  · rw [handler_compare_route env path b h1 h1e h2 h3 h4]; rfl
  · rw [handler_compare_route env path b h1 h1e h2 h3 h4]; rfl
  · rw [handler_compare_route env path b h1 h1e h2 h3 h4]; rfl
  · intro envF fetchO req a l h
    unfold compareServices at h
    cases hA : (chat envF fetchO .agentcore req).2 <;>
      cases hL : (chat envF fetchO .langchain req).2 <;>
        rw [hA, hL] at h <;> simp_all

/-- C4 (witness): the amended theorem at a concrete compare request. -/
theorem comparison_await_order_witness :
    startsBeforeAwaits compareServicesTrace = true
    ∧ startsBeforeAwaits handlerCompareTrace = false
    ∧ (handler lamEnvOk (mkPostEvent "/services/runtime/compare" strandsBody)).body.keys
        = ["strands_result", "langchain_result", "comparison"]
    ∧ ((handler lamEnvOk (mkPostEvent "/services/runtime/compare" strandsBody)).body.get?
          "strands_result").bind (fun r => r.get? "content")
        = some (.str (callBedrock lamEnvOk
            ("You are an AI assistant powered by AWS Bedrock AgentCore (Strands Agents).\n\nUser: "
              ++ jsStringOpt (strandsBody.get? "instruction"))).2)
    ∧ ((handler lamEnvOk (mkPostEvent "/services/runtime/compare" strandsBody)).body.get?
          "langchain_result").bind (fun r => r.get? "content")
        = some (.str (callBedrock lamEnvOk
            ("You are an AI assistant powered by LangChain/LangGraph.\n\nUser: "
              ++ jsStringOpt (strandsBody.get? "instruction"))).2)
    ∧ ∀ (envF : FrontendEnv) (fetchO : FetchOracle) (req : ChatRequest) (a l : Json),
        compareServices envF fetchO req = .ok (a, l) →
        (chat envF fetchO .agentcore req).2 = .ok a
          ∧ (chat envF fetchO .langchain req).2 = .ok l :=
  comparison_await_order lamEnvOk "/services/runtime/compare" strandsBody
    (by decide) (by decide) (by decide) (by decide) (by decide)

/-- A concrete tool call. -/
def sampleToolCall : ToolCall :=
  { tool_name := "get_weather", tool_input := [("city", .str "Tokyo")],
    tool_output := some (.str "sunny") }

/-- A concrete chat response carrying one tool call. -/
def sampleChatResponse : ChatResponse :=
  { response_id := "R1", content := "hi", tool_calls := some [sampleToolCall],
    latency_ms := 10,
    metadata :=
      { service := "langchain", framework := "langchain", model_id := "m",
        region := "us-east-1" } }

/-- C5 (counterexample): a concrete tool call serializes with the keys
`tool_name`, `tool_input`, `tool_output`, not `name`, `input`,
`output`. -/
theorem toolcall_field_names_counterexample :
    sampleToolCall.toJson.keys = ["tool_name", "tool_input", "tool_output"]
    ∧ sampleToolCall.toJson.keys ≠ ["name", "input", "output"] :=
  ⟨rfl, by decide⟩

/-- C5 (amended): every element of the `tool_calls` list of a chat
response is a record with the fields `tool_name` and `tool_input`, plus
`tool_output` exactly when the output is present. -/
theorem toolcall_field_names (r : ChatResponse) (ts : List ToolCall) (t : ToolCall)
    (h1 : r.tool_calls = some ts) (h2 : t ∈ ts) :
    t.toJson.keys
      = ["tool_name", "tool_input"]
          ++ (t.tool_output.map fun _ => "tool_output").toList := by
  rcases t with ⟨n, i, o⟩
  cases o <;> rfl

/-- C5 (witness): the amended theorem at the concrete response. -/
theorem toolcall_field_names_witness :
    sampleToolCall.toJson.keys
      = ["tool_name", "tool_input"]
          ++ (sampleToolCall.tool_output.map fun _ => "tool_output").toList :=
  toolcall_field_names sampleChatResponse [sampleToolCall] sampleToolCall rfl (by simp)

/-- A request sent by `callServiceApi` under a signed-in session: it
goes to the URL resolved from the configuration of the requested
service and carries the SigV4 authorization header. -/
theorem callServiceApi_sent (envF : FrontendEnv) (fetchO : FetchOracle)
    (service : ServiceType) (path method : String) (body : Option Json)
    (c : Credentials) (u : UrlParts)
    (hc : envF.authSession = .ok (some c))
    (hu : parseUrl (getServiceConfig envF service).url path = .ok u) :
    (callServiceApi envF fetchO service path method body).1
      = some { url := u.toUrlString, method := method,
               headers := [("Content-Type", "application/json"), ("host", u.hostname),
                 ("authorization",
                   "AWS4-HMAC-SHA256 Credential=" ++ c.accessKeyId ++ "/" ++
                     (getServiceConfig envF service).region ++ "/" ++ "lambda")],
               body := body } := by
  simp only [callServiceApi]
  rw [hu]
  simp only [servicesSignRequest]
  rw [hc]
  simp only [sigv4Sign]
  cases fetchO _ with
  | networkError m => rfl
  | ok status statusText bodyText json =>
      by_cases hs : fetchOk status = true
      · simp [hs]
      · simp [hs]

/-- Every `callLangChainApi` call sends exactly one request, to the
LangChain Lambda URL joined with the path, with the given method and
body (signing never changes the destination, method or body). -/
theorem callLangChainApi_sent (envF : FrontendEnv) (fetchO : FetchOracle)
    (path method : String) (body : Option Json) :
    ((callLangChainApi envF fetchO path method body).1.map SentRequest.url)
        = some (SERVICES_langchain_url ++ path)
    ∧ ((callLangChainApi envF fetchO path method body).1.map SentRequest.method)
        = some method
    ∧ ((callLangChainApi envF fetchO path method body).1.map SentRequest.body)
        = some body := by
  have hp : parseUrl SERVICES_langchain_url path
      = .ok { protocol := "https:",
              hostname := "fqr4tujkvmwtd6kn57wl5zhvqe0rqcjr.lambda-url.us-east-1.on.aws",
              port := none, pathname := path } := rfl
  simp only [callLangChainApi]
  rw [hp]
  simp only [backendSignRequest]
  rcases h : envF.authSession with e | co
  · cases fetchO _ with
    | networkError m => exact ⟨rfl, rfl, rfl⟩
    | ok status statusText bodyText json =>
        by_cases hs : fetchOk status = true <;> simp [hs] <;> rfl
  · rcases co with _ | c
    · cases fetchO _ with
      | networkError m => exact ⟨rfl, rfl, rfl⟩
      | ok status statusText bodyText json =>
          by_cases hs : fetchOk status = true <;> simp [hs] <;> rfl
    · simp only [sigv4Sign]
      cases fetchO _ with
      | networkError m => exact ⟨rfl, rfl, rfl⟩
      | ok status statusText bodyText json =>
          by_cases hs : fetchOk status = true <;> simp [hs] <;> rfl

/-- C6: a `ChatRequest` consists of exactly a required `instruction`,
an optional `session_id` and an optional `use_tools` flag; every
request with exactly these fields is accepted: the execute route of the
Lambda handler answers it with 200, and the `chat` operation of the
services client forwards its serialized body unchanged (shown for the
deployed LangChain configuration under a signed-in session). -/
theorem chatrequest_shape_accepted (env : LambdaEnv) (path : String) (r : ChatRequest)
    (h1 : jsIncludes path "/execute" = true)
    (h2 : strEndsWith path "/health" = false)
    (h3 : path ≠ "/") :
    r.toJson.keys
      = ["instruction"] ++ (r.session_id.map fun _ => "session_id").toList
          ++ (r.use_tools.map fun _ => "use_tools").toList
    ∧ (handler env (mkPostEvent path r.toJson)).statusCode = 200
    ∧ ∀ (envF : FrontendEnv) (fetchO : FetchOracle) (c : Credentials),
        envF.authSession = .ok (some c) → envF.langchainUrlVar = none →
        ((chat envF fetchO .langchain r).1.map SentRequest.body) = some (some r.toJson) := by
  refine ⟨?_, ?_, ?_⟩
  · rcases r with ⟨i, sid, ut⟩
    cases sid <;> cases ut <;> rfl
  · rw [handler_execute_route env path r.toJson h1 h2 h3 rfl]; rfl
  · intro envF fetchO c hc hl
    have hu : parseUrl (getServiceConfig envF .langchain).url "/api/v1/chat"
        = .ok { protocol := "https:",
                hostname := "hqtuy24tbjdzbobyg4tzsr2xhe0rjmbx.lambda-url.us-east-1.on.aws",
                port := none, pathname := "/api/v1/chat" } := by
      simp only [getServiceConfig, hl, jsOr]
      rfl
    rw [chat, callServiceApi_sent envF fetchO .langchain "/api/v1/chat" "POST"
        (some r.toJson) c _ hc hu]
    rfl

/-- C6 (witness): the theorem at a concrete request with all three
fields. -/
theorem chatrequest_shape_accepted_witness :
    (ChatRequest.mk "hi" (some "S1") (some true)).toJson.keys
      = ["instruction"]
          ++ (((some "S1").map fun _ => "session_id").toList)
          ++ (((some true).map fun _ => "use_tools").toList)
    ∧ (handler lamEnvOk (mkPostEvent "/services/runtime/execute"
          (ChatRequest.mk "hi" (some "S1") (some true)).toJson)).statusCode = 200
    ∧ ∀ (envF : FrontendEnv) (fetchO : FetchOracle) (c : Credentials),
        envF.authSession = .ok (some c) → envF.langchainUrlVar = none →
        ((chat envF fetchO .langchain (ChatRequest.mk "hi" (some "S1") (some true))).1.map
            SentRequest.body)
          = some (some (ChatRequest.mk "hi" (some "S1") (some true)).toJson) :=
  chatrequest_shape_accepted lamEnvOk "/services/runtime/execute"
    (ChatRequest.mk "hi" (some "S1") (some true)) (by decide) (by decide) (by decide)

/-- Looking up an overridden key yields the assigned value. -/
theorem lookup_setKey (fs : List (String × Json)) (k : String) (v : Json) :
    (setKey fs k v).lookup k = some v := by
  induction fs with
  | nil => simp [setKey, List.lookup]
  | cons p rest ih =>
      by_cases hp : p.1 = k
      · simp [setKey, hp, List.lookup]
      · simp only [setKey, hp, if_neg, ite_false, List.lookup]
        have : (k == p.1) = false := by
          simp [BEq.beq]
          exact fun h => hp h.symm
        simp [this, ih]

/-- The strands proxy body always carries `target_service: agentcore`. -/
theorem executeBodyStrands_target (data : ServiceExecuteRequest) :
    (executeBodyStrands data).get? "target_service" = some (.str "agentcore") := by
  rcases data with ⟨i, a, t, um, sid⟩
  cases t <;> cases sid <;> rfl

/-- Execute request fixture for the strands (AgentCore) backend. -/
def strandsExecReq : ServiceExecuteRequest := { instruction := "hi", agent_type := "strands" }

/-- Lookup in an object literal: fields left of `k` with other keys
(present or dropped) are skipped. -/
theorem get_mkObj (pre post : List (String × Option Json)) (k : String) (v : Json)
    (hpre : ∀ p ∈ pre, p.1 ≠ k) :
    (mkObj (pre ++ (k, some v) :: post)).get? k = some v := by
  induction pre with
  | nil => simp [mkObj, Json.get?, List.lookup]
  | cons p rest ih =>
      have hp1 : p.1 ≠ k := hpre p (by simp)
      have hrest : ∀ q ∈ rest, q.1 ≠ k := fun q hq => hpre q (by simp [hq])
      have hbeq : (k == p.1) = false := by
        simp only [beq_eq_false_iff_ne, ne_eq]
        exact fun h => hp1 h.symm
      cases hp : p.2 with
      | none => simpa [mkObj, List.filterMap, hp] using ih hrest
      | some w =>
          simpa [mkObj, Json.get?, List.filterMap, hp, List.lookup, hbeq] using ih hrest

/-- The normalized execute response always reports the requested
service in its metadata. -/
theorem normalizeExecuteResponse_service (response : Json) (tag : String)
    (features : List String) (elapsed : Nat) :
    ((normalizeExecuteResponse response tag features elapsed).get? "metadata").bind
        (fun m => m.get? "service") = some (.str tag) := by
  have h := get_mkObj
    [("response_id", response.get? "response_id"),
     ("content", response.get? "content"),
     ("tool_calls",
       if truthyOpt (response.get? "tool_calls") then response.get? "tool_calls" else none),
     ("latency_ms",
       if truthyOpt (response.get? "latency_ms") then response.get? "latency_ms"
       else some (.num elapsed))]
    [("framework_features", some (.arr (features.map Json.str)))]
    "metadata"
    (.obj (setKey (spreadFields (response.get? "metadata")) "service" (.str tag)))
    (by
      intro p hp
      simp only [List.mem_cons, List.not_mem_nil, or_false] at hp
      rcases hp with rfl | rfl | rfl | rfl <;> simp)
  have hmeta : (normalizeExecuteResponse response tag features elapsed).get? "metadata"
      = some (.obj (setKey (spreadFields (response.get? "metadata")) "service" (.str tag))) := h
  rw [hmeta]
  simp [Json.get?, lookup_setKey]

set_option maxRecDepth 8192 in
/-- C1 (counterexample): a concrete strands execute request is sent to
the LangChain Lambda chat URL, which is not the AgentCore runtime
invocation endpoint for the configured runtime ARN; the request merely
carries a `target_service: agentcore` marker in its body. -/
theorem strands_request_goes_to_langchain_counterexample :
    ((executeOnDeployedService envNoCreds fetchAlwaysOk 0 strandsExecReq).1.map SentRequest.url)
      = some (SERVICES_langchain_url ++ "/api/v1/chat")
    ∧ SERVICES_langchain_url ++ "/api/v1/chat"
        ≠ getAgentCoreEndpoint ⟨SERVICES_region, SERVICES_agentcore_runtimeArn⟩
    ∧ ((executeOnDeployedService envNoCreds fetchAlwaysOk 0 strandsExecReq).1.bind
          (fun s => s.body.bind (fun b => b.get? "target_service")))
        = some (.str "agentcore") := by
  refine ⟨rfl, by decide, rfl⟩

/-- Without session credentials (or with a failed session fetch),
`callServiceApi` sends nothing: the signer throws first. -/
theorem callServiceApi_no_creds (envF : FrontendEnv) (fetchO : FetchOracle)
    (service : ServiceType) (path method : String) (body : Option Json)
    (h : ∀ c, envF.authSession ≠ .ok (some c)) :
    (callServiceApi envF fetchO service path method body).1 = none := by
  simp only [callServiceApi]
  cases hup : parseUrl (getServiceConfig envF service).url path with
  | error e => rfl
  | ok u =>
      simp only [servicesSignRequest]
      cases hauth : envF.authSession with
      | error e => rfl
      | ok co =>
          cases co with
          | none => rfl
          | some c => exact absurd hauth (h c)

/-- C1 (amended): `callServiceApi` dispatches to the URL configured for
the requested service type, but `executeOnDeployedService` sends both
agent types to the LangChain Lambda chat endpoint with POST -- strands
requests are proxied through it with `target_service: agentcore` --
and each fulfilled result is normalized into the common execute
response schema with `metadata.service` identifying the requested
framework. -/
theorem execute_routing (envF : FrontendEnv) (fetchO : FetchOracle)
    (elapsed : Nat) (data : ServiceExecuteRequest) :
    ((executeOnDeployedService envF fetchO elapsed data).1.map SentRequest.url)
        = some (SERVICES_langchain_url ++ "/api/v1/chat")
    ∧ ((executeOnDeployedService envF fetchO elapsed data).1.map SentRequest.method)
        = some "POST"
    ∧ (data.agent_type ≠ "langchain" →
        ((executeOnDeployedService envF fetchO elapsed data).1.bind
            (fun s => s.body.bind (fun b => b.get? "target_service")))
          = some (.str "agentcore"))
    ∧ (∀ j, (executeOnDeployedService envF fetchO elapsed data).2 = .ok j →
        (j.get? "metadata").bind (fun m => m.get? "service")
          = some (.str (if data.agent_type = "langchain" then "langchain" else "agentcore")))
    ∧ (∀ (service : ServiceType) (path method : String) (body : Option Json)
          (sent : SentRequest),
        (callServiceApi envF fetchO service path method body).1 = some sent →
        ∃ u : UrlParts, parseUrl (getServiceConfig envF service).url path = .ok u
          ∧ sent.url = u.toUrlString) := by
  have hsent : (executeOnDeployedService envF fetchO elapsed data).1
      = (callLangChainApi envF fetchO "/api/v1/chat" "POST"
          (some (if data.agent_type = "langchain" then executeBodyLangchain data
                 else executeBodyStrands data))).1 := by
    by_cases hA : data.agent_type = "langchain" <;> simp [executeOnDeployedService, hA]
  obtain ⟨hu, hm, hb⟩ := callLangChainApi_sent envF fetchO "/api/v1/chat" "POST"
    (some (if data.agent_type = "langchain" then executeBodyLangchain data
           else executeBodyStrands data))
  refine ⟨?_, ?_, ?_, ?_, ?_⟩
  · rw [hsent]; exact hu
  · rw [hsent]; exact hm
  · intro hA
    rw [hsent, if_neg hA]
    rw [if_neg hA] at hb
    cases hcc : (callLangChainApi envF fetchO "/api/v1/chat" "POST"
        (some (executeBodyStrands data))).1 with
    | none =>
        rw [hcc] at hb
        simp at hb
    | some s =>
        rw [hcc] at hb
        simp only [Option.map_some'] at hb
        have hb2 : s.body = some (executeBodyStrands data) := Option.some_inj.mp hb
        simp only [Option.some_bind, hb2]
        exact executeBodyStrands_target data
  · intro j hj
    by_cases hA : data.agent_type = "langchain"
    · simp only [executeOnDeployedService, hA, if_true] at hj
      cases hr : (callLangChainApi envF fetchO "/api/v1/chat" "POST"
          (some (executeBodyLangchain data))).2 with
      | error e => rw [hr] at hj; simp [Except.map] at hj
      | ok response =>
          rw [hr] at hj
          simp only [Except.map, Except.ok.injEq] at hj
          subst hj
          rw [if_pos hA]
          exact normalizeExecuteResponse_service response "langchain"
            ["LangChain", "LangGraph", "Checkpointing"] elapsed
    · simp only [executeOnDeployedService, hA, if_false] at hj
      cases hr : (callLangChainApi envF fetchO "/api/v1/chat" "POST"
          (some (executeBodyStrands data))).2 with
      | error e => rw [hr] at hj; simp [Except.map] at hj
      | ok response =>
          rw [hr] at hj
          simp only [Except.map, Except.ok.injEq] at hj
          subst hj
          rw [if_neg hA]
          exact normalizeExecuteResponse_service response "agentcore"
            ["Strands Agents", "AWS Native", "BedrockModel"] elapsed
  · intro service p m bo sent hs
    by_cases hc : ∃ c, envF.authSession = .ok (some c)
    · obtain ⟨c, hc⟩ := hc
      cases hup : parseUrl (getServiceConfig envF service).url p with
      | error e =>
          have hnone : (callServiceApi envF fetchO service p m bo).1 = none := by
            simp only [callServiceApi]
            rw [hup]
          rw [hnone] at hs
          cases hs
      | ok u =>
          have hrun := callServiceApi_sent envF fetchO service p m bo c u hc hup
          rw [hrun] at hs
          exact ⟨u, rfl, by rw [← Option.some_inj.mp hs]⟩
    · push_neg at hc
      rw [callServiceApi_no_creds envF fetchO service p m bo hc] at hs
      cases hs

/-- The concrete request sent by a signed-in `callServiceApi` chat call. -/
def sentW : SentRequest :=
  ((callServiceApi envWithCreds fetchAlwaysOk .langchain "/api/v1/chat" "POST" none).1).getD
    (SentRequest.mk "" "" [] none)

/-- C1 (witness): the amended routing theorem at concrete inputs. -/
theorem execute_routing_witness :
    ((executeOnDeployedService envWithCreds fetchAlwaysOk 0 strandsExecReq).1.map SentRequest.url)
        = some (SERVICES_langchain_url ++ "/api/v1/chat")
    ∧ ((executeOnDeployedService envWithCreds fetchAlwaysOk 0 strandsExecReq).1.bind
          (fun s => s.body.bind (fun b => b.get? "target_service")))
        = some (.str "agentcore")
    ∧ (((normalizeExecuteResponse (.obj []) "agentcore"
            ["Strands Agents", "AWS Native", "BedrockModel"] 0).get? "metadata").bind
          (fun m => m.get? "service"))
        = some (.str (if strandsExecReq.agent_type = "langchain" then "langchain" else "agentcore"))
    ∧ ∃ u : UrlParts,
        parseUrl (getServiceConfig envWithCreds .langchain).url "/api/v1/chat" = .ok u
          ∧ sentW.url = u.toUrlString := by
  obtain ⟨h1, h2, h3, h4, h5⟩ := execute_routing envWithCreds fetchAlwaysOk 0 strandsExecReq
  exact ⟨h1, h3 (by decide),
    h4 (normalizeExecuteResponse (.obj []) "agentcore"
      ["Strands Agents", "AWS Native", "BedrockModel"] 0) rfl,
    h5 .langchain "/api/v1/chat" "POST" none sentW rfl⟩

/-- C7 (counterexample): with a session that has no credentials, the
backend client still sends a concrete chat request, and the sent
request carries no authorization header. -/
theorem unsigned_request_counterexample :
    ((callLangChainApi envNoCreds fetchAlwaysOk "/api/v1/chat" "POST"
          (some (.obj [("instruction", .str "hi")]))).1.map
        (fun r => r.headers.any (fun h => h.1 = "authorization")))
      = some false := rfl

/-- C7 (amended): the services client signs every request it sends with
SigV4 from the session credentials and sends nothing when they are
absent (its signer throws), but the backend client falls back to
sending the request unsigned when the session has no credentials. -/
theorem sigv4_signing (envF : FrontendEnv) (fetchO : FetchOracle)
    (service : ServiceType) (path method : String) (body : Option Json) :
    (∀ c u, envF.authSession = .ok (some c) →
        parseUrl (getServiceConfig envF service).url path = .ok u →
        ((callServiceApi envF fetchO service path method body).1.map
            (fun r => r.headers.any (fun h => h.1 = "authorization"))) = some true)
    ∧ ((∀ c, envF.authSession ≠ .ok (some c)) →
        (callServiceApi envF fetchO service path method body).1 = none)
    ∧ (envF.authSession = .ok none →
        ((callLangChainApi envF fetchO path method body).1.map
            (fun r => r.headers.any (fun h => h.1 = "authorization"))) = some false) := by
  refine ⟨?_, callServiceApi_no_creds envF fetchO service path method body, ?_⟩
  · intro c u hc hu
    rw [callServiceApi_sent envF fetchO service path method body c u hc hu]
    simp
  · intro hc
    have hp : parseUrl SERVICES_langchain_url path
        = .ok { protocol := "https:",
                hostname := "fqr4tujkvmwtd6kn57wl5zhvqe0rqcjr.lambda-url.us-east-1.on.aws",
                port := none, pathname := path } := rfl
    simp only [callLangChainApi]
    rw [hp]
    simp only [backendSignRequest, hc]
    cases fetchO _ with
    | networkError m => rfl
    | ok status statusText bodyText json =>
        by_cases hs : fetchOk status = true <;> simp [hs]

/-- C7 (witness): the signing theorem at concrete sessions: a signed
request under credentials, nothing sent without them by the services
client, and an unsigned request sent by the backend client. -/
theorem sigv4_signing_witness :
    ((callServiceApi envWithCreds fetchAlwaysOk .langchain "/api/v1/chat" "POST" none).1.map
        (fun r => r.headers.any (fun h => h.1 = "authorization"))) = some true
    ∧ (callServiceApi envNoCreds fetchAlwaysOk .langchain "/api/v1/chat" "POST" none).1 = none
    ∧ ((callLangChainApi envNoCreds fetchAlwaysOk "/api/v1/chat" "POST" none).1.map
        (fun r => r.headers.any (fun h => h.1 = "authorization"))) = some false := by
  refine ⟨?_, ?_, ?_⟩
  · exact (sigv4_signing envWithCreds fetchAlwaysOk .langchain "/api/v1/chat" "POST" none).1
      credsA { protocol := "https:",
               hostname := "hqtuy24tbjdzbobyg4tzsr2xhe0rjmbx.lambda-url.us-east-1.on.aws",
               port := none, pathname := "/api/v1/chat" } rfl rfl
  · exact (sigv4_signing envNoCreds fetchAlwaysOk .langchain "/api/v1/chat" "POST" none).2.1
      (by intro c h; cases h)
  · exact (sigv4_signing envNoCreds fetchAlwaysOk .langchain "/api/v1/chat" "POST" none).2.2 rfl

/-- With a configured endpoint, `invokeAgentCore` sends exactly one
POST to that endpoint. -/
theorem invokeAgentCore_sent (envF : FrontendEnv) (fetchO : FetchOracle)
    (parse : String → Option Json) (action : String)
    (payload : List (String × Json)) (sessionId : Option String)
    (hne : getAgentCoreEndpoint (agentCoreConfigOf envF) ≠ "") :
    (invokeAgentCore envF fetchO parse action payload sessionId).1
      = some { url := getAgentCoreEndpoint (agentCoreConfigOf envF), method := "POST",
               headers := agentCoreHeaders envF sessionId,
               body := some (.obj
                 [("input", .obj (objAssign [("action", .str action)] payload))]) } := by
  simp only [invokeAgentCore, if_neg hne]
  cases fetchO _ with
  | networkError m => rfl
  | ok status statusText bodyText json =>
      by_cases hs : fetchOk status = true <;> simp [hs]

/-- With a configured endpoint, `agentCoreChatApi.send` sends exactly
one POST to that endpoint. -/
theorem agentCoreChatSend_sent (envF : FrontendEnv) (fetchO : FetchOracle)
    (nowIso prompt : String) (sessionId : Option String)
    (hne : getAgentCoreEndpoint (agentCoreConfigOf envF) ≠ "") :
    (agentCoreChatSend envF fetchO nowIso prompt sessionId).1
      = some { url := getAgentCoreEndpoint (agentCoreConfigOf envF), method := "POST",
               headers := agentCoreHeaders envF sessionId,
               body := some (.obj [("input", .obj [("prompt", .str prompt)])]) } := by
  simp only [agentCoreChatSend, if_neg hne]
  cases fetchO _ with
  | networkError m => rfl
  | ok status statusText bodyText json =>
      by_cases hs : fetchOk status = true <;> simp [hs]

/-- C8: every AgentCore Runtime invocation (`invokeAgentCore` and the
direct chat send) is a POST to
`https://bedrock-agentcore.{region}.amazonaws.com/runtimes/{EncodedAgentARN}/invocations`,
the URL-encoded runtime ARN followed by `/invocations`; with no
configured ARN, no request is sent at all (both throw a configuration
error first). -/
theorem agentcore_invocation_url (envF : FrontendEnv) (fetchO : FetchOracle)
    (parse : String → Option Json) (action : String) (payload : List (String × Json))
    (sessionId : Option String) (nowIso prompt : String) :
    (∀ sent, (invokeAgentCore envF fetchO parse action payload sessionId).1 = some sent →
        sent.method = "POST"
          ∧ sent.url = "https://bedrock-agentcore." ++ (agentCoreConfigOf envF).region
              ++ ".amazonaws.com/runtimes/"
              ++ encodeURIComponent (agentCoreConfigOf envF).runtimeArn ++ "/invocations")
    ∧ (∀ sent, (agentCoreChatSend envF fetchO nowIso prompt sessionId).1 = some sent →
        sent.method = "POST"
          ∧ sent.url = "https://bedrock-agentcore." ++ (agentCoreConfigOf envF).region
              ++ ".amazonaws.com/runtimes/"
              ++ encodeURIComponent (agentCoreConfigOf envF).runtimeArn ++ "/invocations")
    ∧ ((agentCoreConfigOf envF).runtimeArn = "" →
        (invokeAgentCore envF fetchO parse action payload sessionId).1 = none
          ∧ (agentCoreChatSend envF fetchO nowIso prompt sessionId).1 = none) := by
  by_cases ha : (agentCoreConfigOf envF).runtimeArn = ""
  · have he : getAgentCoreEndpoint (agentCoreConfigOf envF) = "" := by
      simp [getAgentCoreEndpoint, ha]
    refine ⟨?_, ?_, fun _ => ⟨?_, ?_⟩⟩
    · intro sent hs
      simp only [invokeAgentCore, he] at hs
      cases hs
    · intro sent hs
      simp only [agentCoreChatSend, he] at hs
      cases hs
    · simp only [invokeAgentCore, he]
      rfl
    · simp only [agentCoreChatSend, he]
      rfl
  · have he : getAgentCoreEndpoint (agentCoreConfigOf envF)
        = "https://bedrock-agentcore." ++ (agentCoreConfigOf envF).region
            ++ ".amazonaws.com/runtimes/"
            ++ encodeURIComponent (agentCoreConfigOf envF).runtimeArn ++ "/invocations" := by
      simp [getAgentCoreEndpoint, ha]
    have hne : getAgentCoreEndpoint (agentCoreConfigOf envF) ≠ "" := by
      rw [he]
      intro h
      have hd := congrArg String.data h
      simp [String.data_append] at hd
    refine ⟨?_, ?_, fun h0 => absurd h0 ha⟩
    · intro sent hs
      rw [invokeAgentCore_sent envF fetchO parse action payload sessionId hne] at hs
      rw [← Option.some_inj.mp hs]
      exact ⟨rfl, he⟩
    · intro sent hs
      rw [agentCoreChatSend_sent envF fetchO nowIso prompt sessionId hne] at hs
      rw [← Option.some_inj.mp hs]
      exact ⟨rfl, he⟩

/-- A frontend environment with a configured AgentCore runtime ARN. -/
def envArn : FrontendEnv :=
  { agentcoreRegionVar := some "us-east-1",
    agentcoreRuntimeArnVar := some "arn:aws:bedrock-agentcore:us-east-1:1:runtime/demo" }

/-- The concrete request sent by `invokeAgentCore` under `envArn`. -/
def acSent : SentRequest :=
  ((invokeAgentCore envArn fetchAlwaysOk (fun _ => none) "get_agent_info" [] none).1).getD
    (SentRequest.mk "" "" [] none)

/-- The concrete request sent by the direct chat send under `envArn`. -/
def acChatSent : SentRequest :=
  ((agentCoreChatSend envArn fetchAlwaysOk "T0" "hi" none).1).getD
    (SentRequest.mk "" "" [] none)

set_option maxRecDepth 8192 in
/-- C8 (witness): the invocation-URL theorem at a concrete configured
runtime ARN. -/
theorem agentcore_invocation_url_witness :
    (acSent.method = "POST"
      ∧ acSent.url = "https://bedrock-agentcore." ++ (agentCoreConfigOf envArn).region
          ++ ".amazonaws.com/runtimes/"
          ++ encodeURIComponent (agentCoreConfigOf envArn).runtimeArn ++ "/invocations")
    ∧ (acChatSent.method = "POST"
      ∧ acChatSent.url = "https://bedrock-agentcore." ++ (agentCoreConfigOf envArn).region
          ++ ".amazonaws.com/runtimes/"
          ++ encodeURIComponent (agentCoreConfigOf envArn).runtimeArn ++ "/invocations") := by
  obtain ⟨h1, h2, h3⟩ := agentcore_invocation_url envArn fetchAlwaysOk (fun _ => none)
    "get_agent_info" [] none "T0" "hi"
  exact ⟨h1 acSent rfl, h2 acChatSent rfl⟩

/-- C9: the comparison of `createServiceApi` never rejects (it is a
total function of the two settled outcomes) and isolates per-framework
failures: each success flag is true exactly when the corresponding
`executeOnDeployedService` call fulfilled, each result field is present
exactly when it fulfilled, and each error field carries the rejection
message when it rejected and `null` otherwise. -/
theorem compare_isolates_failures (envF : FrontendEnv) (fetchO : FetchOracle)
    (eS eL : Nat) (data : ServiceExecuteRequest) :
    ((serviceApiCompare envF fetchO eS eL data).get? "comparison").bind
        (fun cmp => cmp.get? "strands_success")
      = some (.bool (exceptIsOk
          (executeOnDeployedService envF fetchO eS { data with agent_type := "strands" }).2))
    ∧ ((serviceApiCompare envF fetchO eS eL data).get? "comparison").bind
        (fun cmp => cmp.get? "langchain_success")
      = some (.bool (exceptIsOk
          (executeOnDeployedService envF fetchO eL { data with agent_type := "langchain" }).2))
    ∧ (serviceApiCompare envF fetchO eS eL data).get? "strands_result"
      = (match (executeOnDeployedService envF fetchO eS { data with agent_type := "strands" }).2 with
         | .ok v => some v
         | .error _ => none)
    ∧ (serviceApiCompare envF fetchO eS eL data).get? "langchain_result"
      = (match (executeOnDeployedService envF fetchO eL { data with agent_type := "langchain" }).2 with
         | .ok v => some v
         | .error _ => none)
    ∧ ((serviceApiCompare envF fetchO eS eL data).get? "comparison").bind
        (fun cmp => cmp.get? "strands_error")
      = some (match (executeOnDeployedService envF fetchO eS { data with agent_type := "strands" }).2 with
              | .error e => .str e.message
              | .ok _ => .null)
    ∧ ((serviceApiCompare envF fetchO eS eL data).get? "comparison").bind
        (fun cmp => cmp.get? "langchain_error")
      = some (match (executeOnDeployedService envF fetchO eL { data with agent_type := "langchain" }).2 with
              | .error e => .str e.message
              | .ok _ => .null) := by
  cases hS : (executeOnDeployedService envF fetchO eS { data with agent_type := "strands" }).2 <;>
    cases hL : (executeOnDeployedService envF fetchO eL { data with agent_type := "langchain" }).2 <;>
      refine ⟨?_, ?_, ?_, ?_, ?_, ?_⟩ <;>
        simp [serviceApiCompare, hS, hL, mkObj, Json.get?, List.lookup, exceptIsOk]

/-- C10: for every non-ok HTTP response, `apiClient` throws an
`ApiError` whose status is the HTTP status and whose message is the
response body text, with fallback `API Error: <status>` when the body
is empty; it never resolves with a value for a non-ok response. -/
theorem apiClient_nonok_throws (envF : FrontendEnv) (fetchO : FetchOracle)
    (endpoint method : String) (body : Option Json)
    (status : Nat) (statusText bodyText : String) (json : Json)
    (hf : fetchO (SentRequest.mk (apiBaseUrl envF ++ endpoint) method
        [("Content-Type", "application/json")] body)
      = .ok status statusText bodyText json)
    (hnok : fetchOk status = false) :
    (apiClient envF fetchO endpoint method body).2
      = .error (.api ⟨status, statusText,
          if bodyText = "" then "API Error: " ++ toString status else bodyText⟩) := by
  simp only [apiClient, hf, hnok]
  simp

/-- C10 (witness): the theorem at a concrete 404 with an empty body. -/
theorem apiClient_nonok_throws_witness :
    (apiClient { } (fun _ => .ok 404 "Not Found" "" .null) "/health" "GET" none).2
      = .error (.api ⟨404, "Not Found",
          if "" = "" then "API Error: " ++ toString 404 else ""⟩) :=
  apiClient_nonok_throws { } (fun _ => .ok 404 "Not Found" "" .null) "/health" "GET" none
    404 "Not Found" "" .null rfl rfl
